import Mathlib

/-!
Verification development for the Arbor resolution and metadata-normalization
pipeline (src/app_packages/arbor/download.py and capture_logs.py).

The Python code is shallowly embedded: loosely-typed JSON-like values become
the inductive type JVal; Python dict/attribute errors become Except Unit;
the effectful download pipeline is modelled as a fuel-indexed function over
an explicit environment of external collaborators (extraction engine, HTTP
fetch, HTML scrape, JSON parse, search provider), returning both the result
and the ordered list of external calls performed.
-/

set_option maxRecDepth 4096

namespace Arbor

/-- JSON-like values, the model of Python objects flowing through the
pipeline.  Numbers are modelled as integers (no claim depends on floats). -/
inductive JVal where
  | null
  | bool (b : Bool)
  | int (n : Int)
  | str (s : String)
  | list (xs : List JVal)
  | obj (kvs : List (String × JVal))

/-- Python whitespace for `str.strip()` (ASCII part; non-ASCII space
characters are not modelled). -/
def pySpace (c : Char) : Bool :=
  c = ' ' || c = '\t' || c = '\n' || c = '\r' || c = '\x0b' || c = '\x0c'

/-- Characters of a string with surrounding Python whitespace removed. -/
def pyTrimChars (l : List Char) : List Char :=
  ((l.dropWhile pySpace).reverse.dropWhile pySpace).reverse

/-- Model of Python `str.strip()` with no argument. -/
def pyTrim (s : String) : String :=
  String.mk (pyTrimChars s.toList)

/-- Split a character list on a separator character; models Python
`str.split(sep)` (so the empty string yields one empty part). -/
def splitOnChar (sep : Char) : List Char → List (List Char)
  | [] => [[]]
  | c :: rest =>
    if c = sep then [] :: splitOnChar sep rest
    else
      match splitOnChar sep rest with
      | h :: t => (c :: h) :: t
      | [] => [[c]]

/-- ASCII lower-casing (model of `str.lower()` on the ASCII inputs the
checks compare against). -/
def lowerChar (c : Char) : Char :=
  if 'A' ≤ c ∧ c ≤ 'Z' then Char.ofNat (c.toNat + 32) else c

/-- Model of Python `" ".join(l)`. -/
def pyJoinSpace : List String → String
  | [] => ""
  | [x] => x
  | x :: y :: rest => x ++ " " ++ pyJoinSpace (y :: rest)

/-- First-match lookup in an association list; models Python dict lookup
(dict keys are unique, so first-match is exact). -/
def lookupKV (kvs : List (String × JVal)) (k : String) : Option JVal :=
  match kvs with
  | [] => none
  | (k1, v) :: rest => if k1 = k then some v else lookupKV rest k

/-- Python truthiness of a value. -/
def JVal.truthy : JVal → Bool
  | .null => false
  | .bool b => b
  | .int n => n != 0
  | .str s => s != ""
  | .list xs => !xs.isEmpty
  | .obj kvs => !kvs.isEmpty

/-- Python `a or b` on values. -/
def pyOr (a b : JVal) : JVal := if a.truthy then a else b

/-- Python `d.get(k)` (returns None for a missing key); raises
AttributeError — modelled as `.error ()` — when the receiver is not a dict. -/
def dictGet (j : JVal) (k : String) : Except Unit JVal :=
  match j with
  | .obj kvs => .ok ((lookupKV kvs k).getD .null)
  | _ => .error ()

/-- Python `d.get(k, default)`. -/
def dictGetD (j : JVal) (k : String) (d : JVal) : Except Unit JVal :=
  match j with
  | .obj kvs => .ok ((lookupKV kvs k).getD d)
  | _ => .error ()

/-- Model of Python `int(...)` applied to a string: optional surrounding
whitespace, optional sign, then decimal digits (digit-group underscores are
not modelled; no claim depends on them). -/
def pyIntOfString (s : String) : Option Int :=
  let t := pyTrim s
  let core : List Char → Option Int := fun ds =>
    if ds.isEmpty ∨ ¬ ds.all Char.isDigit then none
    else some (Int.ofNat (ds.foldl (fun acc c => acc * 10 + (c.toNat - 48)) 0))
  match t.toList with
  | '+' :: ds => core ds
  | '-' :: ds => (core ds).map Int.neg
  | ds => core ds

/-- Model of Python `int(x)` on a JSON value: ints pass through, bools map
to 0/1 (Python bool is an int subtype), numeric strings parse; anything else
(None, lists, dicts, non-numeric strings) fails. -/
def pyInt : JVal → Option Int
  | .int n => some n
  | .bool b => some (if b then 1 else 0)
  | .str s => pyIntOfString s
  | _ => none

/-- download.py `_dims`: dimensions of a thumbnail candidate, degrading to
(0, 0) for a non-dict candidate or when `int(...)` fails on either field. -/
def pyDims (t : JVal) : Int × Int :=
  match t with
  | .obj kvs =>
    let w := pyOr ((lookupKV kvs "width").getD .null) (.int 0)
    let h := pyOr ((lookupKV kvs "height").getD .null) (.int 0)
    match pyInt w, pyInt h with
    | some wi, some hi => (wi, hi)
    | _, _ => (0, 0)
  | _ => (0, 0)

/-- download.py `_area`. -/
def pyArea (t : JVal) : Int := (pyDims t).1 * (pyDims t).2

/-- download.py `_is_square` with the default tolerance 2. -/
def pyIsSquare (t : JVal) : Bool :=
  let w := (pyDims t).1
  let h := (pyDims t).2
  decide (0 < w ∧ 0 < h ∧ (w - h).natAbs ≤ 2)

/-- Python `max(l, key=f)`: the first element attaining the maximal key
(replacement only on strictly greater key). -/
def pyMaxBy (f : JVal → Int) : List JVal → Option JVal
  | [] => none
  | x :: xs => some (xs.foldl (fun best y => if f y > f best then y else best) x)

/-- The thumbnail candidate selected in download.py lines 138-145: the
largest-area square candidate if any, else the largest-area candidate. -/
def selectThumbInfo (ts : List JVal) : JVal :=
  let squares := ts.filter pyIsSquare
  if squares.isEmpty then (pyMaxBy pyArea ts).getD .null
  else (pyMaxBy pyArea squares).getD .null

/-- download.py lines 115-149: thumbnail choice.  Returns the selected
`thumbnail_info` (none on the scalar-fallback path) and the `thumbnail_url`
value (JVal.null models Python None). -/
def thumbChoice (info : JVal) : Except Unit (Option JVal × JVal) :=
  match dictGet info "thumbnails" with
  | .error e => .error e
  | .ok tRaw =>
    match pyOr tRaw (.list []) with
    | .list (t0 :: trest) =>
      let ti := selectThumbInfo (t0 :: trest)
      match dictGet (pyOr ti (.obj [])) "url" with
      | .error e => .error e
      | .ok u => .ok (some ti, u)
    | _ =>
      match dictGet info "thumbnail" with
      | .error e => .error e
      | .ok u => .ok (none, u)

/-- download.py line 158: a resolved dimension is kept only when the raw
value is an int or float (bool included, as in Python); everything else is
None. -/
def numDim : JVal → Option Int
  | .int n => some n
  | .bool b => some (if b then 1 else 0)
  | _ => none

/-- download.py lines 151-162: resolved thumbnail dimensions, present only
when the selected thumbnail is a dict with numeric fields. -/
def thumbDims (ti : Option JVal) : Option Int × Option Int :=
  match ti with
  | some (.obj kvs) =>
    (numDim ((lookupKV kvs "width").getD .null),
     numDim ((lookupKV kvs "height").getD .null))
  | _ => (none, none)

/-- Index of the last occurrence of a character in a list, if any. -/
def rfindIdx (l : List Char) (c : Char) : Option Nat :=
  (l.reverse.findIdx? (· = c)).map (fun j => l.length - 1 - j)

/-- Model of pathlib `Path(p).stem` for POSIX paths: final nonempty path
component with its last extension removed (a leading dot or a bare trailing
dot is not an extension, as in pathlib). -/
def pyStem (p : String) : String :=
  let name :=
    ((((splitOnChar '/' p.toList).map String.mk).filter (· ≠ "")).getLast?).getD ""
  let cs := name.toList
  match rfindIdx cs '.' with
  | some i => if 0 < i ∧ i + 1 < cs.length then String.mk (cs.take i) else name
  | none => name

/-- download.py line 85: `title = info.get("title") or Path(full_path).stem`. -/
def deriveTitle (info : JVal) (fullPath : String) : Except Unit JVal :=
  match dictGet info "title" with
  | .error e => .error e
  | .ok t => .ok (pyOr t (.str (pyStem fullPath)))

/-- download.py lines 87-100: artist fallback chain.  The `artists` field is
used only when it is a non-empty list; otherwise the first truthy of
`artist`, `uploader`, `channel`; otherwise the sentinel. -/
def deriveArtists (info : JVal) : Except Unit (List JVal) :=
  match dictGet info "artists" with
  | .error e => .error e
  | .ok a =>
    match a with
    | .list (x :: xs) => .ok (x :: xs)
    | _ =>
      match dictGet info "artist" with
      | .error e => .error e
      | .ok ar =>
        if ar.truthy then .ok [ar]
        else
          match dictGet info "uploader" with
          | .error e => .error e
          | .ok up =>
            if up.truthy then .ok [up]
            else
              match dictGet info "channel" with
              | .error e => .error e
              | .ok ch =>
                if ch.truthy then .ok [ch]
                else .ok [.str "Unknown Artist"]

/-- download.py's frozen dataclass DownloadOverrides: both fields optional;
None means absent. -/
structure DownloadOverrides where
  title : Option String := none
  artists : Option (List String) := none

/-- download.py lines 102-113: apply caller overrides.  The title override
is used only when truthy and non-blank after strip; the artists override
replaces the whole list only when stripping and dropping blanks leaves at
least one entry. -/
def applyOverrides (title : JVal) (artists : List JVal)
    (ov : Option DownloadOverrides) : JVal × List JVal :=
  match ov with
  | none => (title, artists)
  | some o =>
    let t1 :=
      match o.title with
      | none => title
      | some t =>
        if t = "" then title
        else if pyTrim t = "" then title else JVal.str (pyTrim t)
    let a1 :=
      match o.artists with
      | none => artists
      | some l =>
        if l.isEmpty then artists
        else
          match l.filterMap (fun a => if pyTrim a = "" then none else some (pyTrim a)) with
          | [] => artists
          | f0 :: frest => (f0 :: frest).map JVal.str
    (t1, a1)

/-- The canonical result record built in download.py lines 164-175
(returned JSON-serialized; serialization is not modelled). -/
structure Meta where
  path : String
  original_url : String
  title : JVal
  artists : List JVal
  thumbnail_url : JVal
  thumbnail_width : Option Int
  thumbnail_height : Option Int
  thumbnail_is_square : Bool

/-- download.py lines 85-177: derive title and artists from the extractor
record, apply overrides, choose the thumbnail, resolve its dimensions and
build the canonical record. -/
def normalize (info : JVal) (fullPath : String) (origUrl : String)
    (ov : Option DownloadOverrides) : Except Unit Meta :=
  match deriveTitle info fullPath with
  | .error e => .error e
  | .ok t0 =>
    match deriveArtists info with
    | .error e => .error e
    | .ok as0 =>
      let ta := applyOverrides t0 as0 ov
      match thumbChoice info with
      | .error e => .error e
      | .ok (tiOpt, turl) =>
        let wh := thumbDims tiOpt
        .ok { path := fullPath, original_url := origUrl,
              title := ta.1, artists := ta.2,
              thumbnail_url := turl,
              thumbnail_width := wh.1, thumbnail_height := wh.2,
              thumbnail_is_square :=
                match wh.1, wh.2 with
                | some w, some h => w == h
                | _, _ => false }

/-- download.py lines 213-217: navigate
`payload.props.pageProps.state.data.entity`.  Each of props/pageProps/state
is guarded by `or {}`; `data` uses `.get("data", {})` (default only when the
key is absent); the final entity is guarded by `or {}`.  A `.get` on a
non-dict raises AttributeError, modelled as `.error ()`. -/
def entityNav (payload : JVal) : Except Unit JVal :=
  match dictGet payload "props" with
  | .error e => .error e
  | .ok a =>
    match dictGet (pyOr a (.obj [])) "pageProps" with
    | .error e => .error e
    | .ok b =>
      match dictGet (pyOr b (.obj [])) "state" with
      | .error e => .error e
      | .ok c =>
        match dictGetD (pyOr c (.obj [])) "data" (.obj []) with
        | .error e => .error e
        | .ok d =>
          match dictGet d "entity" with
          | .error e => .error e
          | .ok ent => .ok (pyOr ent (.obj []))

/-- Python `x.strip()`: succeeds only on strings (AttributeError otherwise). -/
def pyStrStrip : JVal → Except Unit String
  | .str s => .ok (pyTrim s)
  | _ => .error ()

/-- Python `for x in v`: lists yield elements, strings yield one-character
strings, dicts yield their keys; other values raise TypeError. -/
def pyIter : JVal → Except Unit (List JVal)
  | .list xs => .ok xs
  | .str s => .ok (s.toList.map (fun c => .str (String.mk [c])))
  | .obj kvs => .ok (kvs.map (fun kv => .str kv.1))
  | _ => .error ()

/-- One step of the comprehension in download.py lines 220-224: a non-dict
element is filtered out; for a dict, `(a.get("name") or "").strip()` is kept
when non-blank. -/
def artistEntry (a : JVal) : Except Unit (Option String) :=
  match a with
  | .obj kvs =>
    match pyStrStrip (pyOr ((lookupKV kvs "name").getD .null) (.str "")) with
    | .error e => .error e
    | .ok s => .ok (if s = "" then none else some s)
  | _ => .ok none

/-- download.py lines 219-224: the stripped title
(`entity.get("title") or entity.get("name") or ""`) and the filtered artist
names of a track entity. -/
def entityTitleArtists (e : JVal) : Except Unit (String × List String) :=
  match dictGet e "title" with
  | .error er => .error er
  | .ok tRaw =>
    match dictGet e "name" with
    | .error er => .error er
    | .ok nRaw =>
      match pyStrStrip (pyOr tRaw (pyOr nRaw (.str ""))) with
      | .error er => .error er
      | .ok t =>
        match dictGet e "artists" with
        | .error er => .error er
        | .ok aRaw =>
          match pyIter (pyOr aRaw (.list [])) with
          | .error er => .error er
          | .ok elems =>
            match elems.mapM artistEntry with
            | .error er => .error er
            | .ok opts => .ok (t, opts.filterMap id)

/-- Error kinds of the pipeline, one per distinct raise site. -/
inductive Err where
  | emptyUrl
  | parseError
  | extractionFailed
  | invalidTrackId
  | fetchFailed (status : Nat)
  | missingPayload
  | malformedPayload
  | attrError
  | incompleteMetadata
  | invalidSearchJson
  | noResults
  | outOfFuel
deriving DecidableEq

/-- download.py lines 200-227 after the HTTP fetch: extract the embedded
payload text (None models a missing script tag), parse it with the given
JSON parser, navigate to the entity and check title/artists.  The script
check happens before any parsing. -/
def fetchMeta (parseJson : String → Option JVal) (scriptText : Option String) :
    Except Err (String × List String) :=
  let stext := scriptText.getD ""
  if stext = "" then .error .missingPayload
  else
    match parseJson stext with
    | none => .error .malformedPayload
    | some payload =>
      match entityNav payload with
      | .error _ => .error .attrError
      | .ok e =>
        match entityTitleArtists e with
        | .error _ => .error .attrError
        | .ok ta =>
          if ta.1 = "" ∨ ta.2 = [] then .error .incompleteMetadata
          else .ok ta

/-- download.py lines 245-257: merge the Spotify-derived overrides with the
caller-supplied ones, field by field, the caller winning whenever its field
is not None. -/
def mergedOverrides (spotTitle : String) (spotArtists : List String)
    (caller : Option DownloadOverrides) : DownloadOverrides :=
  { title :=
      match caller with
      | some o => match o.title with | some t => some t | none => some spotTitle
      | none => some spotTitle
    artists :=
      match caller with
      | some o => match o.artists with | some l => some l | none => some spotArtists
      | none => some spotArtists }

/-! Model of CPython urllib.parse.urlparse, restricted to the attributes the
code consumes (scheme, netloc-derived hostname, path).  Mirrors urlsplit
(3.11): lstrip of C0-control-or-space characters, removal of tab/CR/LF,
scheme split, netloc split with the Invalid-IPv6-URL ValueError on an
unmatched square bracket, fragment then query truncation, and urlparse's
params split for schemes that use params.  (The bracketed-host validation
added for IPv6 literals is not modelled; on such hosts newer CPython raises
in even more cases, which only widens the error behaviour recorded here.) -/

/-- Index of the first occurrence of a character at or after a start index. -/
def idxOfFrom (l : List Char) (c : Char) (start : Nat) : Option Nat :=
  ((l.drop start).findIdx? (· = c)).map (· + start)

/-- urlsplit preprocessing: `url.lstrip(_WHATWG_C0_CONTROL_OR_SPACE)` then
removal of every tab, CR and LF. -/
def preClean (s : List Char) : List Char :=
  (s.dropWhile (fun c => c ≤ ' ')).filter
    (fun c => c != '\t' && c != '\r' && c != '\n')

/-- CPython scheme_chars: ASCII letters, digits and `+`, `-`, `.`. -/
def schemeChar (c : Char) : Bool :=
  c.isAlphanum || c = '+' || c = '-' || c = '.'

/-- urlsplit scheme recognition: a `:` at a positive index, preceded by an
ASCII letter and scheme characters only, yields the lowercased scheme. -/
def splitScheme (s : List Char) : String × List Char :=
  match s.findIdx? (· = ':') with
  | some i =>
    if 0 < i ∧ (s.headD ' ').isAlpha ∧ ((s.take i).drop 1).all schemeChar
    then (String.mk ((s.take i).map lowerChar), s.drop (i + 1))
    else ("", s)
  | none => ("", s)

/-- CPython `_splitnetloc`: the netloc runs to the first of `/`, `?`, `#`. -/
def netlocSplit (s : List Char) : List Char × List Char :=
  match s.findIdx? (fun c => c = '/' || c = '?' || c = '#') with
  | some j => (s.take j, s.drop j)
  | none => (s, [])

/-- The parse attributes consumed by download.py. -/
structure UrlParts where
  scheme : String
  netloc : List Char
  path : List Char

/-- Truncate a character list at the first occurrence of a character. -/
def cutAt (l : List Char) (c : Char) : List Char :=
  match l.findIdx? (· = c) with
  | some j => l.take j
  | none => l

/-- Model of urlsplit; `.error ()` is the Invalid IPv6 URL ValueError. -/
def urlsplitModel (url : String) : Except Unit UrlParts :=
  let cs := preClean url.toList
  let sr := splitScheme cs
  match sr.2 with
  | '/' :: '/' :: rest2 =>
    let na := netlocSplit rest2
    if ('[' ∈ na.1 ∧ ']' ∉ na.1) ∨ (']' ∈ na.1 ∧ '[' ∉ na.1) then .error ()
    else .ok ⟨sr.1, na.1, cutAt (cutAt na.2 '#') '?'⟩
  | rest => .ok ⟨sr.1, [], cutAt (cutAt rest '#') '?'⟩

/-- CPython uses_params. -/
def usesParams : List String :=
  ["", "ftp", "hdl", "prospero", "http", "imap", "https", "shttp", "rtsp",
   "rtspu", "sip", "sips", "mms", "sftp", "tel"]

/-- CPython `_splitparams` applied to a path known to contain `;`. -/
def splitParams (path : List Char) : List Char :=
  if '/' ∈ path then
    match rfindIdx path '/' with
    | some k =>
      match idxOfFrom path ';' k with
      | some i => path.take i
      | none => path
    | none => path
  else
    match path.findIdx? (· = ';') with
    | some i => path.take i
    | none => path

/-- Model of urlparse: urlsplit plus the params split on the path. -/
def urlparseModel (url : String) : Except Unit UrlParts :=
  match urlsplitModel url with
  | .error e => .error e
  | .ok p =>
    if p.scheme ∈ usesParams ∧ ';' ∈ p.path
    then .ok ⟨p.scheme, p.netloc, splitParams p.path⟩
    else .ok p

/-- The hostname attribute of a parse result: the part of the netloc after
the last `@`, then either the bracketed host or the part before the first
`:`, lowercased. -/
def hostnameOf (netloc : List Char) : String :=
  let hostinfo :=
    match rfindIdx netloc '@' with
    | some i => netloc.drop (i + 1)
    | none => netloc
  let host :=
    if '[' ∈ hostinfo then
      match hostinfo.findIdx? (· = '[') with
      | some i => cutAt (hostinfo.drop (i + 1)) ']'
      | none => hostinfo
    else cutAt hostinfo ':'
  String.mk (host.map lowerChar)

/-- Model of Python `str.isalnum` (restricted to ASCII alphanumerics; no
claim depends on non-ASCII letters). -/
def isAlnumStr (s : String) : Bool :=
  s != "" && s.toList.all Char.isAlphanum

/-- download.py lines 266-277 after the parse: the scheme/host/path/id
checks of `_spotify_track_id`. -/
def spotCheckParts (p : UrlParts) : Option String :=
  if ¬ (p.scheme = "http" ∨ p.scheme = "https")
      ∨ hostnameOf p.netloc ≠ "open.spotify.com" then none
  else
    match ((splitOnChar '/' p.path).map String.mk).filter (· ≠ "") with
    | [a, b] =>
      if a ≠ "track" then none
      else
        let tid := pyTrim b
        if tid = "" ∨ ¬ isAlnumStr tid then none else some tid
    | _ => none

/-- download.py lines 263-277: `_spotify_track_id`.  `.error ()` models the
ValueError that urlparse itself can raise and the function does not catch. -/
def spotifyTrackId (url : String) : Except Unit (Option String) :=
  match urlparseModel (pyTrim url) with
  | .error e => .error e
  | .ok p => .ok (spotCheckParts p)

/-- External collaborators of the pipeline, each a deterministic function
of its input: the extraction engine (None models failure to return a
record), its realized-output-path computation, the HTTP fetch (status and
body), the script-tag scrape, the JSON parser and the search provider. -/
structure Env where
  extract : String → Option JVal
  prepare : JVal → String
  httpGet : String → Nat × String
  findScript : String → Option String
  search : String → String
  parseJson : String → Option JVal

/-- External calls a resolution performs, in order. -/
inductive ExtCall where
  | mkdirs
  | extract (url : String)
  | httpGet (url : String)
  | search (q : String)

/-- download.py lines 239-241: the top search result's URL value. -/
def topResultUrl (results : JVal) : Except Unit JVal :=
  match results with
  | .list (r0 :: _) => dictGet (pyOr r0 (.obj [])) "url"
  | _ => .ok .null

/-- download.py lines 183-257 up to the recursive call: fetch the embed
page, extract and check the metadata, search, pick the top result and build
the merged overrides.  Returns the calls performed and either an error or
the URL to re-resolve together with the merged overrides. -/
def spotifyPrep (env : Env) (tid : String) (ov : Option DownloadOverrides) :
    List ExtCall × Except Err (String × DownloadOverrides) :=
  if tid = "" then ([], .error .invalidTrackId)
  else
    let embedUrl := "https://open.spotify.com/embed/track/" ++ tid ++ "?utm_source=oembed"
    let sb := env.httpGet embedUrl
    if sb.1 ≠ 200 then ([.httpGet embedUrl], .error (.fetchFailed sb.1))
    else
      match fetchMeta env.parseJson (env.findScript sb.2) with
      | .error e => ([.httpGet embedUrl], .error e)
      | .ok ta =>
        let query := pyTrim (pyJoinSpace (ta.1 :: ta.2))
        let calls := [ExtCall.httpGet embedUrl, ExtCall.search query]
        match env.parseJson (env.search query) with
        | none => (calls, .error .invalidSearchJson)
        | some results =>
          match topResultUrl results with
          | .error _ => (calls, .error .attrError)
          | .ok (.str s) =>
            if pyTrim s = "" then (calls, .error .noResults)
            else (calls, .ok (pyTrim s, mergedOverrides ta.1 ta.2 ov))
          | .ok _ => (calls, .error .noResults)

/-- download.py `download`, fuel-indexed: the fuel bounds how many times the
Spotify path may re-enter `download`; running out is `.error .outOfFuel`
(the real code has no such bound).  Returns the external calls performed in
order and the outcome. -/
def downloadFuel (fuel : Nat) (env : Env) (url : String)
    (ov : Option DownloadOverrides) : List ExtCall × Except Err Meta :=
  let trimmed := pyTrim url
  if trimmed = "" then ([], .error .emptyUrl)
  else
    match spotifyTrackId trimmed with
    | .error _ => ([], .error .parseError)
    | .ok (some tid) =>
      match spotifyPrep env tid ov with
      | (calls, .error e) => (calls, .error e)
      | (calls, .ok um) =>
        match fuel with
        | 0 => (calls, .error .outOfFuel)
        | f + 1 =>
          match downloadFuel f env um.1 (some um.2) with
          | (cs, res) => (calls ++ cs, res)
    | .ok none =>
      match env.extract trimmed with
      | none => ([.mkdirs, .extract trimmed], .error .extractionFailed)
      | some info =>
        match normalize info (env.prepare info) trimmed ov with
        | .error _ => ([.mkdirs, .extract trimmed], .error .attrError)
        | .ok m => ([.mkdirs, .extract trimmed], .ok m)

/-! capture_logs.py: a wrapped operation is modelled by the trace it would
produce: the text it writes to stdout/stderr, interleaved in order, ending
in either a returned value or a raised exception carried as its formatted
traceback text. -/

/-- A wrapped operation: writes to stdout or stderr, then ends by returning
or raising (the raise carries the text `traceback.print_exc` would emit). -/
inductive PyProg (α : Type) where
  | ret (v : α)
  | raiseExc (tb : String)
  | printOut (s : String) (k : PyProg α)
  | printErr (s : String) (k : PyProg α)

/-- All text the operation writes to either stream, in order. -/
def progOutput {α : Type} : PyProg α → String
  | .ret _ => ""
  | .raiseExc _ => ""
  | .printOut s k => s ++ progOutput k
  | .printErr s k => s ++ progOutput k

/-- The operation's outcome: the returned value, or the traceback text of
the exception it raises. -/
def progResult {α : Type} : PyProg α → Except String α
  | .ret v => .ok v
  | .raiseExc tb => .error tb
  | .printOut _ k => progResult k
  | .printErr _ k => progResult k

/-- capture_logs.py lines 9-20: run the operation with both streams
redirected into one buffer; a raised exception is converted to its
traceback text appended to the buffer, and the result becomes None. -/
def capture_logs {α : Type} : PyProg α → Option α × String
  | .ret v => (some v, "")
  | .raiseExc tb => (none, tb)
  | .printOut s k =>
    match capture_logs k with
    | (r, log) => (r, s ++ log)
  | .printErr s k =>
    match capture_logs k with
    | (r, log) => (r, s ++ log)

/-- The caller's own output streams. -/
structure Streams where
  out : String
  err : String

/-- Running `capture_logs` from a caller whose streams hold the given text:
the redirect confines every write (and the printed traceback) to the
returned buffer, so the caller's streams come back unchanged. -/
def captureLogsRun {α : Type} (s : Streams) (p : PyProg α) :
    (Option α × String) × Streams :=
  (capture_logs p, s)

/-! Specification vocabulary and concrete instances used by the theorems. -/

/-- `(lookupKV kvs k).getD .null`: the value Python `d.get(k)` yields on a
dict. -/
def lookVal (kvs : List (String × JVal)) (k : String) : JVal :=
  (lookupKV kvs k).getD .null

/-- `x` is an element of `l` attaining the maximal key, and every element
strictly before it has a strictly smaller key — the "stable max" / first
encountered tie-break. -/
def isFirstMax (f : JVal → Int) (l : List JVal) (x : JVal) : Prop :=
  ∃ pre post, l = pre ++ x :: post ∧ (∀ y ∈ pre, f y < f x) ∧ ∀ y ∈ l, f y ≤ f x

/-- Precondition of the bounded-recursion claim: whenever the Spotify path
resolves a URL to re-enter the pipeline with, that URL is not itself a
Spotify track URL. -/
def SearchYieldsNonSpotify (env : Env) : Prop :=
  ∀ tid ov calls u m, spotifyPrep env tid ov = (calls, .ok (u, m)) →
    spotifyTrackId (pyTrim u) = .ok none

/-- An inert environment: every collaborator fails or returns nothing. -/
def trivEnv : Env :=
  { extract := fun _ => none
    prepare := fun _ => ""
    httpGet := fun _ => (0, "")
    findScript := fun _ => none
    search := fun _ => ""
    parseJson := fun _ => none }

/-- A well-formed embed payload whose entity has title "T" and one artist
"X". -/
def loopPayload : JVal :=
  .obj [("props", .obj [("pageProps", .obj [("state", .obj [("data",
    .obj [("entity", .obj [("title", .str "T"),
      ("artists", .list [.obj [("name", .str "X")]])])])])])])]

/-- A search result list whose top result is itself a Spotify track URL. -/
def loopResults : JVal :=
  .list [.obj [("url", .str "https://open.spotify.com/track/ABC")]]

/-- An environment whose search provider always returns a Spotify track URL
as the top result: resolution re-enters itself forever. -/
def loopEnv : Env :=
  { extract := fun _ => none
    prepare := fun _ => ""
    httpGet := fun _ => (200, "")
    findScript := fun _ => some "P"
    search := fun _ => "R"
    parseJson := fun s =>
      if s = "P" then some loopPayload
      else if s = "R" then some loopResults else none }

/-- The Spotify track URL the loop environment keeps yielding. -/
def loopUrl : String := "https://open.spotify.com/track/ABC"

/-- The three-candidate thumbnail list of the spec's worked example:
100 by 100, 300 by 100 and 200 by 202. -/
def specThumbs : List JVal :=
  [.obj [("url", .str "a"), ("width", .int 100), ("height", .int 100)],
   .obj [("url", .str "b"), ("width", .int 300), ("height", .int 100)],
   .obj [("url", .str "c"), ("width", .int 200), ("height", .int 202)]]

/-- An extractor record whose only thumbnail candidate is 0 by 0: rejected
by the square filter, picked by the fallback, resolved to equal dimensions. -/
def fallbackSquareInfo : JVal :=
  .obj [("thumbnails",
    .list [.obj [("url", .str "z"), ("width", .int 0), ("height", .int 0)]])]

/-- The normalized record `fallbackSquareInfo` produces. -/
def fallbackSquareMeta : Meta :=
  { path := "/p", original_url := "u", title := .str "p",
    artists := [.str "Unknown Artist"], thumbnail_url := .str "z",
    thumbnail_width := some 0, thumbnail_height := some 0,
    thumbnail_is_square := true }

/-- A minimal extractor record with only a title. -/
def titledInfo : JVal := .obj [("title", .str "Song")]

/-- The normalized record `titledInfo` produces under the merged override
of the C4 example. -/
def mergedMeta : Meta :=
  { path := "/tmp/a.m4a", original_url := "u", title := .str "Override",
    artists := [.str "X"], thumbnail_url := .null,
    thumbnail_width := none, thumbnail_height := none,
    thumbnail_is_square := false }

/-! Theorems.  Shared helper lemmas come first; each claim is settled by a
single named theorem (with a witness where the theorem has hypotheses). -/

lemma strAppend_assoc (a b c : String) : a ++ b ++ c = a ++ (b ++ c) := by
  rcases a with ⟨la⟩
  rcases b with ⟨lb⟩
  rcases c with ⟨lc⟩
  exact congrArg String.mk (List.append_assoc la lb lc)

lemma capture_err {α : Type} (p : PyProg α) (tb : String)
    (h : progResult p = .error tb) :
    capture_logs p = (none, progOutput p ++ tb) := by
  induction p with
  | ret v => simp [progResult] at h
  | raiseExc t =>
    simp only [progResult, Except.error.injEq] at h
    subst h
    rfl
  | printOut s k ih =>
    have h2 : progResult k = .error tb := h
    simp only [capture_logs, progOutput, ih h2]
    rw [strAppend_assoc]
  | printErr s k ih =>
    have h2 : progResult k = .error tb := h
    simp only [capture_logs, progOutput, ih h2]
    rw [strAppend_assoc]

lemma capture_ok {α : Type} (p : PyProg α) (v : α)
    (h : progResult p = .ok v) :
    capture_logs p = (some v, progOutput p) := by
  induction p with
  | ret w =>
    simp only [progResult, Except.ok.injEq] at h
    subst h
    rfl
  | raiseExc t => simp [progResult] at h
  | printOut s k ih =>
    have h2 : progResult k = .ok v := h
    simp only [capture_logs, progOutput, ih h2]
  | printErr s k ih =>
    have h2 : progResult k = .ok v := h
    simp only [capture_logs, progOutput, ih h2]

/-- C8: the log-capturing invoker returns (result, log text): when the
wrapped operation raises, the result is absent, the exception is not
re-raised, and the log is the operation's prior output with the formatted
trace appended; when it returns v after printing, the pair is (v, exactly
that output in order); the caller's own streams are unchanged either way. -/
theorem c8_capture_logs_spec {α : Type} (p : PyProg α) (s : Streams) :
    (∀ tb, progResult p = .error tb →
      capture_logs p = (none, progOutput p ++ tb)) ∧
    (∀ v, progResult p = .ok v →
      capture_logs p = (some v, progOutput p)) ∧
    (captureLogsRun s p).2 = s :=
  ⟨fun tb h => capture_err p tb h, fun v h => capture_ok p v h, rfl⟩

/-- Witness for C8: an operation printing "hello\n" then returning 42, and
one printing then raising. -/
theorem c8_capture_logs_witness :
    capture_logs (PyProg.printOut "hello\n" (PyProg.ret (42 : Nat))) =
      (some 42, "hello\n") ∧
    capture_logs (PyProg.printOut "boom " (PyProg.raiseExc "Trace") : PyProg Nat) =
      (none, "boom Trace") ∧
    (captureLogsRun ⟨"co", "ce"⟩ (PyProg.printOut "hello\n" (PyProg.ret (42 : Nat)))).2 =
      ⟨"co", "ce"⟩ :=
  ⟨((c8_capture_logs_spec (PyProg.printOut "hello\n" (PyProg.ret (42 : Nat)))
      ⟨"", ""⟩).2.1 42 rfl).trans rfl,
   ((c8_capture_logs_spec (PyProg.printOut "boom " (PyProg.raiseExc "Trace") : PyProg Nat)
      ⟨"", ""⟩).1 "Trace" rfl).trans rfl,
   (c8_capture_logs_spec (PyProg.printOut "hello\n" (PyProg.ret (42 : Nat)))
      ⟨"co", "ce"⟩).2.2⟩

/-- C9: a blank or whitespace-only reference fails with the empty-URL error
before any external interaction: the call trace is empty and the outcome is
independent of every collaborator. -/
theorem c9_blank_reference (fuel : Nat) (env : Env) (url : String)
    (ov : Option DownloadOverrides) (h : pyTrim url = "") :
    downloadFuel fuel env url ov = ([], .error .emptyUrl) := by
  simp [downloadFuel, h]

/-- Witness for C9 at the whitespace-only reference "   ". -/
theorem c9_blank_reference_witness :
    pyTrim "   " = "" ∧ downloadFuel 3 trivEnv "   " none = ([], .error .emptyUrl) :=
  ⟨rfl, c9_blank_reference 3 trivEnv "   " none rfl⟩

/-- C3: an override title replaces the derived title iff it is non-blank
after trimming; an override artists list replaces the whole derived list iff
trimming its entries and dropping blanks leaves at least one entry, in which
case exactly those trimmed entries are used; an all-blank override field is
ignored and the derived value kept; no partial merge happens. -/
theorem c3_overrides_replace_spec :
    (∀ t as, applyOverrides t as none = (t, as)) ∧
    (∀ t as o s, o.title = some s → pyTrim s ≠ "" →
      (applyOverrides t as (some o)).1 = .str (pyTrim s)) ∧
    (∀ t as o, (o.title = none ∨ ∃ s, o.title = some s ∧ pyTrim s = "") →
      (applyOverrides t as (some o)).1 = t) ∧
    (∀ t as o l f0 frest, o.artists = some l →
      l.filterMap (fun a => if pyTrim a = "" then none else some (pyTrim a)) =
        f0 :: frest →
      (applyOverrides t as (some o)).2 = (f0 :: frest).map JVal.str) ∧
    (∀ t as o, (o.artists = none ∨ ∃ l, o.artists = some l ∧
        l.filterMap (fun a => if pyTrim a = "" then none else some (pyTrim a)) = []) →
      (applyOverrides t as (some o)).2 = as) := by
  refine ⟨fun t as => rfl, ?_, ?_, ?_, ?_⟩
  · intro t as o s hs hne
    have hs0 : s ≠ "" := by
      intro h
      subst h
      exact hne rfl
    simp [applyOverrides, hs, hs0, hne]
  · intro t as o h
    rcases h with h | ⟨s, hs, hblank⟩
    · simp [applyOverrides, h]
    · by_cases hs0 : s = ""
      · simp [applyOverrides, hs, hs0]
      · simp [applyOverrides, hs, hs0, hblank]
  · intro t as o l f0 frest hl hf
    have hne : ¬ l.isEmpty := by
      intro h
      rw [List.isEmpty_iff] at h
      subst h
      simp at hf
    simp [applyOverrides, hl, hne, hf]
  · intro t as o h
    rcases h with h | ⟨l, hl, hf⟩
    · simp [applyOverrides, h]
    · by_cases hne : l.isEmpty
      · simp [applyOverrides, hl, hne]
      · simp [applyOverrides, hl, hne, hf]

/-- Witness for C3 at the spec's example: override artists ("A", "") has one
blank entry, so the effective override is ["A"]; an all-blank override
(" ",) is ignored; a blank override title is ignored. -/
theorem c3_overrides_replace_witness :
    (applyOverrides (.str "t") [.str "d"]
      (some { title := none, artists := some ["A", ""] })).2 = [JVal.str "A"] ∧
    (applyOverrides (.str "t") [.str "d"]
      (some { title := none, artists := some [" ", ""] })).2 = [JVal.str "d"] ∧
    (applyOverrides (.str "t") [.str "d"]
      (some { title := some "  ", artists := none })).1 = JVal.str "t" :=
  ⟨(c3_overrides_replace_spec.2.2.2.1 (.str "t") [.str "d"]
      { title := none, artists := some ["A", ""] } ["A", ""] "A" [] rfl rfl).trans rfl,
   (c3_overrides_replace_spec.2.2.2.2 (.str "t") [.str "d"]
      { title := none, artists := some [" ", ""] }
      (Or.inr ⟨[" ", ""], rfl, rfl⟩)).trans rfl,
   c3_overrides_replace_spec.2.2.1 (.str "t") [.str "d"]
      { title := some "  ", artists := none } (Or.inr ⟨"  ", rfl, rfl⟩)⟩

lemma normalize_inv (info : JVal) (path u : String) (ov : Option DownloadOverrides)
    (m : Meta) (h : normalize info path u ov = .ok m) :
    ∃ t0 as0 ti turl, deriveTitle info path = .ok t0 ∧ deriveArtists info = .ok as0 ∧
      thumbChoice info = .ok (ti, turl) ∧
      m.path = path ∧ m.original_url = u ∧
      m.title = (applyOverrides t0 as0 ov).1 ∧
      m.artists = (applyOverrides t0 as0 ov).2 ∧
      m.thumbnail_url = turl ∧
      m.thumbnail_width = (thumbDims ti).1 ∧
      m.thumbnail_height = (thumbDims ti).2 ∧
      m.thumbnail_is_square =
        (match (thumbDims ti).1, (thumbDims ti).2 with
         | some w, some hh => w == hh
         | _, _ => false) := by
  revert h
  unfold normalize
  cases h1 : deriveTitle info path with
  | error e => intro h; cases h
  | ok t0 =>
    cases h2 : deriveArtists info with
    | error e => intro h; cases h
    | ok as0 =>
      cases h3 : thumbChoice info with
      | error e => intro h; cases h
      | ok p =>
        obtain ⟨ti, turl⟩ := p
        intro h
        obtain rfl := Except.ok.inj h
        exact ⟨t0, as0, ti, turl, rfl, rfl, rfl, rfl, rfl, rfl, rfl, rfl, rfl, rfl, rfl⟩

/-- C4: on the Spotify path the merged overrides are computed field by
field, the caller-supplied value winning whenever it is present and the
Spotify-derived value used otherwise (including the worked example); as a
consequence a non-blank caller title ends up verbatim (trimmed) as the
final result title. -/
theorem c4_spotify_merge_spec :
    (∀ sT sA o t, o.title = some t →
      (mergedOverrides sT sA (some o)).title = some t) ∧
    (∀ sT sA o, o.title = none →
      (mergedOverrides sT sA (some o)).title = some sT) ∧
    (∀ sT sA o l, o.artists = some l →
      (mergedOverrides sT sA (some o)).artists = some l) ∧
    (∀ sT sA o, o.artists = none →
      (mergedOverrides sT sA (some o)).artists = some sA) ∧
    (∀ sT sA, mergedOverrides sT sA none = { title := some sT, artists := some sA }) ∧
    (mergedOverrides "T" ["X"] (some { title := some "Override", artists := none }) =
      { title := some "Override", artists := some ["X"] }) ∧
    (∀ sT sA o t info path u m, o.title = some t → pyTrim t ≠ "" →
      normalize info path u (some (mergedOverrides sT sA (some o))) = .ok m →
      m.title = .str (pyTrim t)) := by
  refine ⟨?_, ?_, ?_, ?_, fun sT sA => rfl, rfl, ?_⟩
  · intro sT sA o t ht
    simp [mergedOverrides, ht]
  · intro sT sA o ht
    simp [mergedOverrides, ht]
  · intro sT sA o l hl
    simp [mergedOverrides, hl]
  · intro sT sA o hl
    simp [mergedOverrides, hl]
  · intro sT sA o t info path u m ht hne h
    obtain ⟨t0, as0, ti, turl, _, _, _, _, _, htitle, _⟩ :=
      normalize_inv info path u (some (mergedOverrides sT sA (some o))) m h
    rw [htitle]
    have ht0 : t ≠ "" := by
      intro hx
      subst hx
      exact hne rfl
    simp [applyOverrides, mergedOverrides, ht, ht0, hne]

/-- Witness for C4: Spotify-derived title "T" and artists ["X"], caller
override title "Override"; the merge keeps "Override" and ["X"], and the
final normalized record's title is "Override". -/
theorem c4_spotify_merge_witness :
    pyTrim "Override" ≠ "" ∧
    normalize titledInfo "/tmp/a.m4a" "u"
      (some (mergedOverrides "T" ["X"]
        (some { title := some "Override", artists := none }))) = .ok mergedMeta ∧
    JVal.str (pyTrim "Override") = .str "Override" ∧
    mergedMeta.title = .str (pyTrim "Override") :=
  ⟨by decide, rfl, rfl,
   c4_spotify_merge_spec.2.2.2.2.2.2 "T" ["X"]
     { title := some "Override", artists := none } "Override"
     titledInfo "/tmp/a.m4a" "u" mergedMeta rfl (by decide) rfl⟩

/-- C7: in every successfully normalized result, the square flag is true
exactly when the resolved thumbnail width and height are both present and
equal, whichever way the thumbnail was selected. -/
theorem c7_square_flag_spec (info : JVal) (path u : String)
    (ov : Option DownloadOverrides) (m : Meta) (h : normalize info path u ov = .ok m) :
    (m.thumbnail_is_square = true ↔
      ∃ w, m.thumbnail_width = some w ∧ m.thumbnail_height = some w) := by
  obtain ⟨t0, as0, ti, turl, _, _, _, _, _, _, _, _, hw, hh, hf⟩ :=
    normalize_inv info path u ov m h
  rw [hf, hw, hh]
  cases (thumbDims ti).1 with
  | none => simp
  | some w =>
    cases (thumbDims ti).2 with
    | none => simp
    | some hgt =>
      simp only [beq_iff_eq, Option.some.injEq]
      constructor
      · intro hwh
        exact ⟨w, rfl, hwh.symm⟩
      · rintro ⟨w2, hw2, hh2⟩
        exact hw2.trans hh2.symm

/-- Witness for C7: a single 0 by 0 candidate is rejected by the square
filter (dimensions must be positive) so it is picked by the largest-area
fallback, yet its resolved dimensions are present and equal, so the flag is
reported true. -/
theorem c7_square_flag_witness :
    normalize fallbackSquareInfo "/p" "u" none = .ok fallbackSquareMeta ∧
    (fallbackSquareMeta.thumbnail_is_square = true ↔
      ∃ w, fallbackSquareMeta.thumbnail_width = some w ∧
        fallbackSquareMeta.thumbnail_height = some w) :=
  ⟨rfl, c7_square_flag_spec fallbackSquareInfo "/p" "u" none fallbackSquareMeta rfl⟩

/-- Counterexample to C2 as stated: a record whose `title` field is present
but the empty string.  The code tests truthiness (`info.get("title") or
stem`), so the present-but-empty title is discarded and the filesystem stem
is used, while the claim ("the extractor-provided title if present")
demands the empty title. -/
theorem c2_title_present_counterexample :
    lookupKV [("title", JVal.str "")] "title" = some (.str "") ∧
    deriveTitle (.obj [("title", .str "")]) "/tmp/video.m4a" = .ok (.str "video") ∧
    ¬ deriveTitle (.obj [("title", .str "")]) "/tmp/video.m4a" = .ok (.str "") := by
  refine ⟨rfl, rfl, ?_⟩
  intro h
  have h2 : Except.ok (ε := Unit) (JVal.str "video") = Except.ok (JVal.str "") :=
    (rfl : Except.ok (ε := Unit) (JVal.str "video") =
      deriveTitle (.obj [("title", .str "")]) "/tmp/video.m4a").trans h
  have h3 := Except.ok.inj h2
  have h4 : ("video" : String) = "" := by injection h3
  exact absurd h4 (by decide)

/-- C2 (amended): the result title is the extractor-provided title if
present and truthy (a non-empty value), else the filesystem stem of the
output path; the artists are the first applicable source in the order
non-empty `artists` list, truthy `artist`, truthy `uploader`, truthy
`channel`, and otherwise the sentinel ["Unknown Artist"]. -/
theorem c2_title_artists_fallback_spec :
    (∀ kvs path, (lookVal kvs "title").truthy = true →
      deriveTitle (.obj kvs) path = .ok (lookVal kvs "title")) ∧
    (∀ kvs path, (lookVal kvs "title").truthy = false →
      deriveTitle (.obj kvs) path = .ok (.str (pyStem path))) ∧
    (∀ kvs x xs, lookVal kvs "artists" = .list (x :: xs) →
      deriveArtists (.obj kvs) = .ok (x :: xs)) ∧
    (∀ kvs, (∀ x xs, lookVal kvs "artists" ≠ .list (x :: xs)) →
      (lookVal kvs "artist").truthy = true →
      deriveArtists (.obj kvs) = .ok [lookVal kvs "artist"]) ∧
    (∀ kvs, (∀ x xs, lookVal kvs "artists" ≠ .list (x :: xs)) →
      (lookVal kvs "artist").truthy = false →
      (lookVal kvs "uploader").truthy = true →
      deriveArtists (.obj kvs) = .ok [lookVal kvs "uploader"]) ∧
    (∀ kvs, (∀ x xs, lookVal kvs "artists" ≠ .list (x :: xs)) →
      (lookVal kvs "artist").truthy = false →
      (lookVal kvs "uploader").truthy = false →
      (lookVal kvs "channel").truthy = true →
      deriveArtists (.obj kvs) = .ok [lookVal kvs "channel"]) ∧
    (∀ kvs, (∀ x xs, lookVal kvs "artists" ≠ .list (x :: xs)) →
      (lookVal kvs "artist").truthy = false →
      (lookVal kvs "uploader").truthy = false →
      (lookVal kvs "channel").truthy = false →
      deriveArtists (.obj kvs) = .ok [.str "Unknown Artist"]) := by
  have hart : ∀ kvs, (∀ x xs, lookVal kvs "artists" ≠ .list (x :: xs)) →
      deriveArtists (.obj kvs) =
        (if (lookVal kvs "artist").truthy then .ok [lookVal kvs "artist"]
         else if (lookVal kvs "uploader").truthy then .ok [lookVal kvs "uploader"]
         else if (lookVal kvs "channel").truthy then .ok [lookVal kvs "channel"]
         else .ok [.str "Unknown Artist"]) := by
    intro kvs hne
    show (match lookVal kvs "artists" with
      | .list (x :: xs) => Except.ok (x :: xs)
      | _ => _) = _
    cases ha : lookVal kvs "artists" with
    | list l =>
      cases l with
      | nil => rfl
      | cons x xs => exact absurd ha (hne x xs)
    | null => rfl
    | bool b => rfl
    | int n => rfl
    | str s => rfl
    | obj kvs2 => rfl
  refine ⟨?_, ?_, ?_, ?_, ?_, ?_, ?_⟩
  · intro kvs path ht
    simp only [lookVal] at ht
    simp [deriveTitle, dictGet, pyOr, lookVal, ht]
  · intro kvs path ht
    simp only [lookVal] at ht
    simp [deriveTitle, dictGet, pyOr, lookVal, ht]
  · intro kvs x xs ha
    have : deriveArtists (.obj kvs) =
        (match lookVal kvs "artists" with
         | .list (y :: ys) => Except.ok (y :: ys)
         | _ => _) := rfl
    rw [this, ha]
  · intro kvs hne h1
    rw [hart kvs hne]
    simp [h1]
  · intro kvs hne h1 h2
    rw [hart kvs hne]
    simp [h1, h2]
  · intro kvs hne h1 h2 h3
    rw [hart kvs hne]
    simp [h1, h2, h3]
  · intro kvs hne h1 h2 h3
    rw [hart kvs hne]
    simp [h1, h2, h3]

/-- Witness for C2 at the spec's examples: a record with only
artist "Solo Artist" yields ["Solo Artist"]; a record with none of the four
sources yields ["Unknown Artist"]; a truthy title is used verbatim. -/
theorem c2_title_artists_fallback_witness :
    deriveArtists (.obj [("artist", .str "Solo Artist")]) = .ok [.str "Solo Artist"] ∧
    deriveArtists (.obj []) = .ok [.str "Unknown Artist"] ∧
    deriveTitle (.obj [("title", .str "Song")]) "/tmp/a.m4a" = .ok (.str "Song") :=
  ⟨(c2_title_artists_fallback_spec.2.2.2.1 [("artist", .str "Solo Artist")]
      (fun x xs h => by cases h) rfl).trans rfl,
   (c2_title_artists_fallback_spec.2.2.2.2.2.2 []
      (fun x xs h => by cases h) rfl rfl rfl).trans rfl,
   (c2_title_artists_fallback_spec.1 [("title", .str "Song")] "/tmp/a.m4a" rfl).trans rfl⟩

/-- C6: navigating props.pageProps.state.data.entity with the key absent at
any level yields the empty object without raising; given a parsed payload
whose entity navigation and title/artist extraction succeed, the fetch
fails with the incomplete-metadata error exactly when the stripped title is
empty or the filtered artist-name list is empty; a missing or empty script
tag fails with the missing-payload error whatever the JSON parser would do
(it is never consulted). -/
theorem c6_payload_navigation_spec :
    (∀ kvs, lookupKV kvs "props" = none →
      entityNav (.obj kvs) = .ok (.obj [])) ∧
    (∀ kvs pkvs, lookupKV kvs "props" = some (.obj pkvs) →
      lookupKV pkvs "pageProps" = none →
      entityNav (.obj kvs) = .ok (.obj [])) ∧
    (∀ kvs pkvs qkvs, lookupKV kvs "props" = some (.obj pkvs) →
      lookupKV pkvs "pageProps" = some (.obj qkvs) →
      lookupKV qkvs "state" = none →
      entityNav (.obj kvs) = .ok (.obj [])) ∧
    (∀ kvs pkvs qkvs rkvs, lookupKV kvs "props" = some (.obj pkvs) →
      lookupKV pkvs "pageProps" = some (.obj qkvs) →
      lookupKV qkvs "state" = some (.obj rkvs) →
      lookupKV rkvs "data" = none →
      entityNav (.obj kvs) = .ok (.obj [])) ∧
    (∀ kvs pkvs qkvs rkvs dkvs, lookupKV kvs "props" = some (.obj pkvs) →
      lookupKV pkvs "pageProps" = some (.obj qkvs) →
      lookupKV qkvs "state" = some (.obj rkvs) →
      lookupKV rkvs "data" = some (.obj dkvs) →
      lookupKV dkvs "entity" = none →
      entityNav (.obj kvs) = .ok (.obj [])) ∧
    (∀ parse s payload e t as, s ≠ "" → parse s = some payload →
      entityNav payload = .ok e → entityTitleArtists e = .ok (t, as) →
      (fetchMeta parse (some s) = .error .incompleteMetadata ↔ t = "" ∨ as = [])) ∧
    (∀ parse, fetchMeta parse none = .error .missingPayload) ∧
    (∀ parse, fetchMeta parse (some "") = .error .missingPayload) := by
  have lknil : ∀ k, lookupKV [] k = none := fun k => rfl
  refine ⟨?_, ?_, ?_, ?_, ?_, ?_, fun parse => rfl, fun parse => rfl⟩
  · intro kvs h
    simp [entityNav, dictGet, dictGetD, pyOr, JVal.truthy, h, lknil]
  · intro kvs pkvs h1 h2
    cases pkvs with
    | nil => simp [entityNav, dictGet, dictGetD, pyOr, JVal.truthy, h1, lknil]
    | cons p ps =>
      simp [entityNav, dictGet, dictGetD, pyOr, JVal.truthy, h1, h2, lknil]
  · intro kvs pkvs qkvs h1 h2 h3
    cases pkvs with
    | nil => simp [lookupKV] at h2
    | cons p ps =>
      cases qkvs with
      | nil => simp [entityNav, dictGet, dictGetD, pyOr, JVal.truthy, h1, h2, lknil]
      | cons q qs =>
        simp [entityNav, dictGet, dictGetD, pyOr, JVal.truthy, h1, h2, h3, lknil]
  · intro kvs pkvs qkvs rkvs h1 h2 h3 h4
    cases pkvs with
    | nil => simp [lookupKV] at h2
    | cons p ps =>
      cases qkvs with
      | nil => simp [lookupKV] at h3
      | cons q qs =>
        cases rkvs with
        | nil =>
          simp [entityNav, dictGet, dictGetD, pyOr, JVal.truthy, h1, h2, h3, lknil]
        | cons r rs =>
          simp [entityNav, dictGet, dictGetD, pyOr, JVal.truthy,
            h1, h2, h3, h4, lknil]
  · intro kvs pkvs qkvs rkvs dkvs h1 h2 h3 h4 h5
    cases pkvs with
    | nil => simp [lookupKV] at h2
    | cons p ps =>
      cases qkvs with
      | nil => simp [lookupKV] at h3
      | cons q qs =>
        cases rkvs with
        | nil => simp [lookupKV] at h4
        | cons r rs =>
          simp [entityNav, dictGet, dictGetD, pyOr, JVal.truthy,
            h1, h2, h3, h4, h5, lknil]
  · intro parse s payload e t as hs hp hnav hta
    simp only [fetchMeta, Option.getD, hp, hnav, hta]
    rw [if_neg hs]
    by_cases hcond : t = "" ∨ as = []
    · rw [if_pos hcond]
      simp [hcond]
    · rw [if_neg hcond]
      simp [hcond]

/-- Witness for C6: a payload whose state level lacks the data key
navigates to the empty object; the loop environment's payload has a
non-blank title and artist so its fetch is not incomplete; a payload with a
blank title fails with the incomplete-metadata error. -/
theorem c6_payload_navigation_witness :
    entityNav (.obj [("props", .obj [("pageProps", .obj [("state", .obj
      [("other", .int 1)])])])]) = .ok (.obj []) ∧
    (fetchMeta loopEnv.parseJson (some "P") = .error .incompleteMetadata ↔
      ("T" : String) = "" ∨ (["X"] : List String) = []) ∧
    fetchMeta loopEnv.parseJson (some "P") = .ok ("T", ["X"]) ∧
    fetchMeta loopEnv.parseJson none = .error .missingPayload :=
  ⟨c6_payload_navigation_spec.2.2.2.1 [("props", .obj [("pageProps", .obj [("state",
      .obj [("other", .int 1)])])])] [("pageProps", .obj [("state",
      .obj [("other", .int 1)])])] [("state", .obj [("other", .int 1)])]
      [("other", .int 1)] rfl rfl rfl rfl,
   c6_payload_navigation_spec.2.2.2.2.2.1 loopEnv.parseJson "P" loopPayload
     (.obj [("title", .str "T"), ("artists", .list [.obj [("name", .str "X")]])])
     "T" ["X"] (by decide) rfl rfl rfl,
   rfl,
   c6_payload_navigation_spec.2.2.2.2.2.2.1 loopEnv.parseJson⟩

lemma foldl_max_isFirstMax (f : JVal → Int) :
    ∀ (xs : List JVal) (x : JVal),
      isFirstMax f (x :: xs)
        (xs.foldl (fun best y => if f y > f best then y else best) x) := by
  intro xs
  induction xs with
  | nil =>
    intro x
    refine ⟨[], [], rfl, ?_, ?_⟩
    · intro y hy
      cases hy
    · intro y hy
      rw [List.mem_singleton] at hy
      simp [hy]
  | cons y ys ih =>
    intro x
    rw [List.foldl_cons]
    by_cases hyx : f y > f x
    · rw [if_pos hyx]
      obtain ⟨pre, post, heq, hpre, hall⟩ := ih y
      have hr : f y ≤ f (ys.foldl (fun best z => if f z > f best then z else best) y) :=
        hall y (List.mem_cons_self y ys)
      refine ⟨x :: pre, post, ?_, ?_, ?_⟩
      · rw [List.cons_append, ← heq]
      · intro z hz
        rcases List.mem_cons.mp hz with rfl | hz2
        · exact lt_of_lt_of_le hyx hr
        · exact hpre z hz2
      · intro z hz
        rcases List.mem_cons.mp hz with rfl | hz2
        · exact le_of_lt (lt_of_lt_of_le hyx hr)
        · exact hall z hz2
    · rw [if_neg hyx]
      have hyx2 : f y ≤ f x := le_of_not_lt hyx
      obtain ⟨pre, post, heq, hpre, hall⟩ := ih x
      cases pre with
      | nil =>
        rw [List.nil_append] at heq
        have hx : x = ys.foldl (fun best z => if f z > f best then z else best) x :=
          (List.cons.injEq _ _ _ _ ▸ heq).1
        refine ⟨[], y :: ys, ?_, ?_, ?_⟩
        · rw [List.nil_append, ← hx]
        · intro z hz
          cases hz
        · intro z hz
          rcases List.mem_cons.mp hz with rfl | hz2
          · rw [← hx]
          · rcases List.mem_cons.mp hz2 with rfl | hz3
            · rw [← hx]
              exact hyx2
            · exact hall z (List.mem_cons_of_mem x hz3)
      | cons p pre2 =>
        rw [List.cons_append] at heq
        have hp : p = x := ((List.cons.injEq _ _ _ _ ▸ heq).1).symm
        have hys : ys = pre2 ++
            ys.foldl (fun best z => if f z > f best then z else best) x :: post :=
          (List.cons.injEq _ _ _ _ ▸ heq).2
        have hxlt : f x <
            f (ys.foldl (fun best z => if f z > f best then z else best) x) := by
          have := hpre p (List.mem_cons_self p pre2)
          rw [hp] at this
          exact this
        refine ⟨x :: y :: pre2, post, ?_, ?_, ?_⟩
        · rw [List.cons_append, List.cons_append, ← hys]
        · intro z hz
          rcases List.mem_cons.mp hz with rfl | hz2
          · exact hxlt
          · rcases List.mem_cons.mp hz2 with rfl | hz3
            · exact lt_of_le_of_lt hyx2 hxlt
            · have := hpre z (List.mem_cons_of_mem p hz3)
              exact this
        · intro z hz
          rcases List.mem_cons.mp hz with rfl | hz2
          · exact le_of_lt hxlt
          · rcases List.mem_cons.mp hz2 with rfl | hz3
            · exact le_of_lt (lt_of_le_of_lt hyx2 hxlt)
            · exact hall z (List.mem_cons_of_mem x hz3)

lemma pyArea_eq (t : JVal) : pyArea t = (pyDims t).1 * (pyDims t).2 := rfl

lemma pyDims_obj (kvs : List (String × JVal)) :
    pyDims (.obj kvs) =
      (match pyInt (pyOr ((lookupKV kvs "width").getD .null) (.int 0)),
             pyInt (pyOr ((lookupKV kvs "height").getD .null) (.int 0)) with
       | some wi, some hi => (wi, hi)
       | _, _ => ((0 : Int), (0 : Int))) := rfl

/-- C1: on a non-empty thumbnail list the selected candidate is the first
maximum-area element of the square-filtered list when that filter is
non-empty and of the full list otherwise (stable max, ties to the first in
input order); squareness means both dimensions positive and differing by at
most 2; a non-dict candidate, an absent width, or a width or height that
fails to parse as an int gives area 0 rather than raising; and with no
thumbnails list the scalar thumbnail field is used with no dimensions. -/
theorem c1_thumbnail_selection :
    (∀ t0 trest, isFirstMax pyArea
      (if ((t0 :: trest).filter pyIsSquare).isEmpty then t0 :: trest
       else (t0 :: trest).filter pyIsSquare)
      (selectThumbInfo (t0 :: trest))) ∧
    (∀ kvs t0 trest r, lookupKV kvs "thumbnails" = some (.list (t0 :: trest)) →
      thumbChoice (.obj kvs) = .ok r → r.1 = some (selectThumbInfo (t0 :: trest))) ∧
    (∀ t, pyIsSquare t = true ↔
      0 < (pyDims t).1 ∧ 0 < (pyDims t).2 ∧
      ((pyDims t).1 - (pyDims t).2).natAbs ≤ 2) ∧
    (∀ t, (∀ kvs, t ≠ .obj kvs) → pyArea t = 0) ∧
    (∀ kvs, lookupKV kvs "width" = none → pyArea (.obj kvs) = 0) ∧
    (∀ kvs w, lookupKV kvs "width" = some w → pyInt (pyOr w (.int 0)) = none →
      pyArea (.obj kvs) = 0) ∧
    (∀ kvs hv, lookupKV kvs "height" = some hv → pyInt (pyOr hv (.int 0)) = none →
      pyArea (.obj kvs) = 0) ∧
    (∀ kvs, lookupKV kvs "thumbnails" = none →
      thumbChoice (.obj kvs) = .ok (none, (lookupKV kvs "thumbnail").getD .null) ∧
      thumbDims none = (none, none)) := by
  refine ⟨?_, ?_, ?_, ?_, ?_, ?_, ?_, ?_⟩
  · intro t0 trest
    by_cases hsq : ((t0 :: trest).filter pyIsSquare).isEmpty
    · rw [if_pos hsq]
      unfold selectThumbInfo
      rw [if_pos hsq]
      simp only [pyMaxBy, Option.getD_some]
      exact foldl_max_isFirstMax pyArea trest t0
    · rw [if_neg hsq]
      unfold selectThumbInfo
      rw [if_neg hsq]
      cases hs : (t0 :: trest).filter pyIsSquare with
      | nil => rw [hs] at hsq; exact absurd rfl hsq
      | cons s0 srest =>
        simp only [pyMaxBy, Option.getD_some]
        exact foldl_max_isFirstMax pyArea srest s0
  · intro kvs t0 trest r h1 h2
    have hp : pyOr (.list (t0 :: trest)) (.list []) = .list (t0 :: trest) := rfl
    have hfirst : dictGet (.obj kvs) "thumbnails" = .ok (.list (t0 :: trest)) := by
      simp [dictGet, h1]
    simp only [thumbChoice, hfirst, hp] at h2
    cases hu : dictGet (pyOr (selectThumbInfo (t0 :: trest)) (.obj [])) "url" with
    | error e =>
      rw [hu] at h2
      cases h2
    | ok u =>
      rw [hu] at h2
      obtain rfl := Except.ok.inj h2
      rfl
  · intro t
    simp [pyIsSquare]
  · intro t h
    cases t with
    | obj kvs => exact absurd rfl (h kvs)
    | null => rfl
    | bool b => rfl
    | int n => rfl
    | str s => rfl
    | list xs => rfl
  · intro kvs h
    rw [pyArea_eq, pyDims_obj, h]
    cases hh : pyInt (pyOr ((lookupKV kvs "height").getD .null) (.int 0)) with
    | none => simp [hh, pyOr, JVal.truthy, pyInt]
    | some hi => simp [hh, pyOr, JVal.truthy, pyInt]
  · intro kvs w h1 h2
    rw [pyArea_eq, pyDims_obj, h1, Option.getD_some, h2]
    rfl
  · intro kvs hv h1 h2
    rw [pyArea_eq, pyDims_obj, h1, Option.getD_some, h2]
    cases hw : pyInt (pyOr ((lookupKV kvs "width").getD .null) (.int 0)) with
    | none => rfl
    | some wi => simp [hw]
  · intro kvs h
    constructor
    · simp [thumbChoice, dictGet, h, pyOr, JVal.truthy]
    · rfl

/-- Witness for C1 at the spec's worked example: among 100 by 100,
300 by 100 and 200 by 202 with tolerance 2, the squares are the first and
third and the selected candidate is the 200 by 202 one (area 40400). -/
theorem c1_thumbnail_selection_witness :
    thumbChoice (.obj [("thumbnails", .list specThumbs)]) =
      .ok (some (.obj [("url", .str "c"), ("width", .int 200), ("height", .int 202)]),
        .str "c") ∧
    (some (JVal.obj [("url", .str "c"), ("width", .int 200), ("height", .int 202)]),
      (JVal.str "c")).1 = some (selectThumbInfo specThumbs) ∧
    selectThumbInfo specThumbs =
      .obj [("url", .str "c"), ("width", .int 200), ("height", .int 202)] :=
  ⟨rfl,
   c1_thumbnail_selection.2.1 [("thumbnails", .list specThumbs)]
     (.obj [("url", .str "a"), ("width", .int 100), ("height", .int 100)])
     [.obj [("url", .str "b"), ("width", .int 300), ("height", .int 100)],
      .obj [("url", .str "c"), ("width", .int 200), ("height", .int 202)]]
     (some (.obj [("url", .str "c"), ("width", .int 200), ("height", .int 202)]),
       .str "c") rfl rfl,
   rfl⟩

lemma spotCheck_some_iff (p : UrlParts) (tid : String) :
    spotCheckParts p = some tid ↔
      (p.scheme = "http" ∨ p.scheme = "https") ∧
      hostnameOf p.netloc = "open.spotify.com" ∧
      ∃ seg, ((splitOnChar '/' p.path).map String.mk).filter (· ≠ "") = ["track", seg] ∧
        tid = pyTrim seg ∧ tid ≠ "" ∧ isAlnumStr tid = true := by
  unfold spotCheckParts
  by_cases hg : ¬(p.scheme = "http" ∨ p.scheme = "https")
      ∨ hostnameOf p.netloc ≠ "open.spotify.com"
  · rw [if_pos hg]
    constructor
    · intro h
      cases h
    · rintro ⟨h1, h2, _⟩
      rcases hg with hg | hg
      · exact absurd h1 hg
      · exact absurd h2 hg
  · rw [if_neg hg]
    push_neg at hg
    obtain ⟨h1, h2⟩ := hg
    cases hl : ((splitOnChar '/' p.path).map String.mk).filter (· ≠ "") with
    | nil =>
      constructor
      · intro h
        cases h
      · rintro ⟨_, _, seg, hseg, _⟩
        cases hseg
    | cons a rest =>
      cases rest with
      | nil =>
        constructor
        · intro h
          cases h
        · rintro ⟨_, _, seg, hseg, _⟩
          cases hseg
      | cons b rest2 =>
        cases rest2 with
        | cons c rest3 =>
          constructor
          · intro h
            cases h
          · rintro ⟨_, _, seg, hseg, _⟩
            cases hseg
        | nil =>
          show (if a ≠ "track" then none
            else if pyTrim b = "" ∨ ¬ isAlnumStr (pyTrim b) = true then (none : Option String)
            else some (pyTrim b)) = some tid ↔ _
          by_cases ha : a = "track"
          · subst ha
            rw [if_neg (fun hcon => hcon rfl)]
            by_cases hb : pyTrim b = "" ∨ ¬ isAlnumStr (pyTrim b) = true
            · rw [if_pos hb]
              constructor
              · intro h
                cases h
              · rintro ⟨_, _, seg, hseg, htid, hne, hal⟩
                obtain ⟨rfl⟩ : seg = b := by
                  have := (List.cons.injEq _ _ _ _ ▸ hseg).2
                  exact ((List.cons.injEq _ _ _ _ ▸ this).1).symm
                rcases hb with hb | hb
                · rw [htid] at hne
                  exact absurd hb hne
                · rw [htid] at hal
                  exact absurd hal hb
            · rw [if_neg hb]
              push_neg at hb
              constructor
              · intro h
                have ht := Option.some.inj h
                exact ⟨h1, h2, b, rfl, ht.symm, ht ▸ hb.1, ht ▸ hb.2⟩
              · rintro ⟨_, _, seg, hseg, htid, hne, hal⟩
                obtain ⟨rfl⟩ : seg = b := by
                  have := (List.cons.injEq _ _ _ _ ▸ hseg).2
                  exact ((List.cons.injEq _ _ _ _ ▸ this).1).symm
                rw [htid]
          · rw [if_pos ha]
            constructor
            · intro h
              cases h
            · rintro ⟨_, _, seg, hseg, _⟩
              have ha2 := (List.cons.injEq _ _ _ _ ▸ hseg).1
              exact absurd ha2 ha

/-- Counterexample to C5 as stated: on the input "http://[" the URL parser
raises ValueError (Invalid IPv6 URL: the netloc has an unmatched bracket),
which `_spotify_track_id` does not catch, so the input neither matches nor
"yields absent without raising any error". -/
theorem c5_track_id_counterexample :
    spotifyTrackId "http://[" = .error () ∧
    spotifyTrackId "http://[" ≠ .ok none :=
  ⟨rfl, fun h =>
    by cases (rfl : spotifyTrackId "http://[" = .error ()).symm.trans h⟩

/-- C5 (amended): the resolver returns a track id exactly when the
reference parses with scheme http or https, hostname open.spotify.com
(case-insensitively), a path of exactly two non-empty segments whose first
is "track" and whose second is non-empty and alphanumeric after trimming
(the trimmed segment being returned); it returns absent on any other input
that parses; and it propagates the parser's ValueError — raised on a netloc
with an unmatched square bracket — instead of yielding absent. -/
theorem c5_spotify_track_id_spec (url : String) :
    (∀ tid, spotifyTrackId url = .ok (some tid) ↔
      ∃ p, urlparseModel (pyTrim url) = .ok p ∧
        (p.scheme = "http" ∨ p.scheme = "https") ∧
        hostnameOf p.netloc = "open.spotify.com" ∧
        ∃ seg, ((splitOnChar '/' p.path).map String.mk).filter (· ≠ "") =
            ["track", seg] ∧
          tid = pyTrim seg ∧ tid ≠ "" ∧ isAlnumStr tid = true) ∧
    ((∃ e, spotifyTrackId url = .error e) ↔
      ∃ e, urlparseModel (pyTrim url) = .error e) := by
  cases h : urlparseModel (pyTrim url) with
  | error e =>
    constructor
    · intro tid
      constructor
      · intro h2
        simp [spotifyTrackId, h] at h2
      · rintro ⟨p, hp, _⟩
        cases hp
    · simp [spotifyTrackId, h]
  | ok p =>
    have hok : spotifyTrackId url = .ok (spotCheckParts p) := by
      simp [spotifyTrackId, h]
    constructor
    · intro tid
      rw [hok]
      constructor
      · intro h2
        have h3 := Except.ok.inj h2
        obtain ⟨d1, d2, d3⟩ := (spotCheck_some_iff p tid).mp h3
        exact ⟨p, rfl, d1, d2, d3⟩
      · rintro ⟨p2, hp2, d1, d2, d3⟩
        obtain rfl := Except.ok.inj hp2
        rw [(spotCheck_some_iff p tid).mpr ⟨d1, d2, d3⟩]
    · constructor
      · rintro ⟨e, he⟩
        rw [hok] at he
        cases he
      · rintro ⟨e, he⟩
        cases he

/-- Witness for C5 at the spec's examples: the canonical track URL yields
"ABC123"; a non-Spotify URL, a three-segment path and an album path all
yield absent. -/
theorem c5_spotify_track_id_witness :
    (spotifyTrackId "https://open.spotify.com/track/ABC123" = .ok (some "ABC123") ↔
      ∃ p, urlparseModel (pyTrim "https://open.spotify.com/track/ABC123") = .ok p ∧
        (p.scheme = "http" ∨ p.scheme = "https") ∧
        hostnameOf p.netloc = "open.spotify.com" ∧
        ∃ seg, ((splitOnChar '/' p.path).map String.mk).filter (· ≠ "") =
            ["track", seg] ∧
          ("ABC123" : String) = pyTrim seg ∧ ("ABC123" : String) ≠ "" ∧
          isAlnumStr "ABC123" = true) ∧
    spotifyTrackId "https://open.spotify.com/track/ABC123" = .ok (some "ABC123") ∧
    spotifyTrackId "https://example.com/x" = .ok none ∧
    spotifyTrackId "https://open.spotify.com/track/ABC123/extra" = .ok none ∧
    spotifyTrackId "https://open.spotify.com/album/ABC123" = .ok none :=
  ⟨(c5_spotify_track_id_spec "https://open.spotify.com/track/ABC123").1 "ABC123",
   rfl, rfl, rfl, rfl⟩

lemma download_nonspot_eq (env : Env) (url : String) (ov : Option DownloadOverrides)
    (fuel : Nat) (h : spotifyTrackId (pyTrim url) = .ok none) :
    downloadFuel fuel env url ov = downloadFuel 0 env url ov := by
  by_cases hb : pyTrim url = ""
  · simp [downloadFuel, hb]
  · simp [downloadFuel, hb, h]

lemma download_fuel0_no_outOfFuel (env : Env) (url : String)
    (ov : Option DownloadOverrides)
    (h : ∀ tid, spotifyTrackId (pyTrim url) ≠ .ok (some tid)) :
    (downloadFuel 0 env url ov).2 ≠ .error .outOfFuel := by
  by_cases hb : pyTrim url = ""
  · simp [downloadFuel, hb]
  · cases hs : spotifyTrackId (pyTrim url) with
    | error e => simp [downloadFuel, hb, hs]
    | ok o =>
      cases o with
      | some tid => exact absurd hs (h tid)
      | none =>
        simp only [downloadFuel, hb, hs, if_neg hb]
        cases he : env.extract (pyTrim url) with
        | none => simp [he]
        | some info =>
          cases hn : normalize info (env.prepare info) (pyTrim url) ov with
          | error e2 => simp [he, hn]
          | ok m => simp [he, hn]

lemma fetchMeta_ne_outOfFuel (parse : String → Option JVal)
    (st : Option String) : fetchMeta parse st ≠ .error .outOfFuel := by
  by_cases h1 : (st.getD "") = ""
  · simp [fetchMeta, h1]
  · cases h2 : parse (st.getD "") with
    | none => simp [fetchMeta, h1, h2]
    | some payload =>
      cases h3 : entityNav payload with
      | error e => simp [fetchMeta, h1, h2, h3]
      | ok ent =>
        cases h4 : entityTitleArtists ent with
        | error e => simp [fetchMeta, h1, h2, h3, h4]
        | ok ta =>
          by_cases h5 : ta.1 = "" ∨ ta.2 = []
          · simp [fetchMeta, h1, h2, h3, h4, h5]
          · simp [fetchMeta, h1, h2, h3, h4, h5]

lemma spotifyPrep_ne_outOfFuel (env : Env) (tid : String)
    (ov : Option DownloadOverrides) :
    (spotifyPrep env tid ov).2 ≠ .error .outOfFuel := by
  intro hcon
  by_cases h0 : tid = ""
  · simp [spotifyPrep, h0] at hcon
  · rcases hhttp : env.httpGet ("https://open.spotify.com/embed/track/" ++ tid
        ++ "?utm_source=oembed") with ⟨st, body⟩
    by_cases hst : st ≠ 200
    · simp [spotifyPrep, h0, hhttp, hst] at hcon
    · cases hfm : fetchMeta env.parseJson (env.findScript body) with
      | error e =>
        simp [spotifyPrep, h0, hhttp, hst, hfm] at hcon
        have hne := fetchMeta_ne_outOfFuel env.parseJson (env.findScript body)
        rw [hfm, hcon] at hne
        exact hne rfl
      | ok ta =>
        cases hpj : env.parseJson (env.search (pyTrim (pyJoinSpace (ta.1 :: ta.2)))) with
        | none => simp [spotifyPrep, h0, hhttp, hst, hfm, hpj] at hcon
        | some results =>
          cases htop : topResultUrl results with
          | error e2 => simp [spotifyPrep, h0, hhttp, hst, hfm, hpj, htop] at hcon
          | ok yv =>
            cases yv with
            | str s =>
              by_cases hts : pyTrim s = ""
              · simp [spotifyPrep, h0, hhttp, hst, hfm, hpj, htop, hts] at hcon
              · simp [spotifyPrep, h0, hhttp, hst, hfm, hpj, htop, hts] at hcon
            | null => simp [spotifyPrep, h0, hhttp, hst, hfm, hpj, htop] at hcon
            | bool b => simp [spotifyPrep, h0, hhttp, hst, hfm, hpj, htop] at hcon
            | int n => simp [spotifyPrep, h0, hhttp, hst, hfm, hpj, htop] at hcon
            | list xs => simp [spotifyPrep, h0, hhttp, hst, hfm, hpj, htop] at hcon
            | obj kvs => simp [spotifyPrep, h0, hhttp, hst, hfm, hpj, htop] at hcon

lemma download_bounded (env : Env) (henv : SearchYieldsNonSpotify env)
    (url : String) (ov : Option DownloadOverrides) (fuel : Nat) :
    downloadFuel (fuel + 1) env url ov = downloadFuel 1 env url ov ∧
    (downloadFuel 1 env url ov).2 ≠ .error .outOfFuel := by
  by_cases hb : pyTrim url = ""
  · constructor
    · simp [downloadFuel, hb]
    · simp [downloadFuel, hb]
  · cases hs : spotifyTrackId (pyTrim url) with
    | error e =>
      constructor
      · simp [downloadFuel, hb, hs]
      · simp [downloadFuel, hb, hs]
    | ok o =>
      cases o with
      | none =>
        constructor
        · simp [downloadFuel, hb, hs]
        · simp only [downloadFuel, hb, hs, if_neg hb]
          cases he : env.extract (pyTrim url) with
          | none => simp [he]
          | some info =>
            cases hn : normalize info (env.prepare info) (pyTrim url) ov with
            | error e2 => simp [he, hn]
            | ok m => simp [he, hn]
      | some tid =>
        have key : ∀ F : Nat, downloadFuel F env url ov =
            (match spotifyPrep env tid ov with
             | (calls, .error e) => (calls, .error e)
             | (calls, .ok um) =>
               match F with
               | 0 => (calls, .error .outOfFuel)
               | f + 1 =>
                 match downloadFuel f env um.1 (some um.2) with
                 | (cs, res) => (calls ++ cs, res)) := by
          intro F
          conv_lhs => rw [downloadFuel]
          simp only [if_neg hb, hs]
        rcases hsp : spotifyPrep env tid ov with ⟨calls, r⟩
        cases r with
        | error e =>
          have h5 := spotifyPrep_ne_outOfFuel env tid ov
          rw [hsp] at h5
          have h6 : e ≠ Err.outOfFuel := fun hcon => h5 (by rw [hcon])
          constructor
          · rw [key (fuel + 1), key 1, hsp]
          · rw [key 1, hsp]
            intro hcon2
            have h7 : (Except.error e : Except Err Meta) = .error .outOfFuel := hcon2
            exact h6 (Except.error.inj h7)
        | ok um =>
          obtain ⟨u, merged⟩ := um
          have hu : spotifyTrackId (pyTrim u) = .ok none :=
            henv tid ov calls u merged hsp
          constructor
          · rw [key (fuel + 1), key 1, hsp]
            show (match downloadFuel fuel env u (some merged) with
                  | (cs, res) => (calls ++ cs, res)) =
                (match downloadFuel 0 env u (some merged) with
                  | (cs, res) => (calls ++ cs, res))
            rw [download_nonspot_eq env u (some merged) fuel hu]
          · rw [key 1, hsp]
            show (match downloadFuel 0 env u (some merged) with
                  | (cs, res) => (calls ++ cs, res)).2 ≠ Except.error Err.outOfFuel
            have hnoz := download_fuel0_no_outOfFuel env u (some merged)
              (fun t hcon => by rw [hu] at hcon; cases hcon)
            rcases hz : downloadFuel 0 env u (some merged) with ⟨cs, res⟩
            rw [hz] at hnoz
            exact hnoz

lemma download_loop :
    ∀ (fuel : Nat) (ov : Option DownloadOverrides),
      (downloadFuel fuel loopEnv loopUrl ov).2 = .error .outOfFuel := by
  intro fuel
  induction fuel with
  | zero => intro ov; rfl
  | succ f ih =>
    intro ov
    show (match downloadFuel f loopEnv loopUrl (some (mergedOverrides "T" ["X"] ov)) with
          | (cs, res) =>
            ([ExtCall.httpGet "https://open.spotify.com/embed/track/ABC?utm_source=oembed",
              ExtCall.search "T X"] ++ cs, res)).2 = Except.error Err.outOfFuel
    rcases hd : downloadFuel f loopEnv loopUrl (some (mergedOverrides "T" ["X"] ov))
      with ⟨cs, res⟩
    have h2 := ih (some (mergedOverrides "T" ["X"] ov))
    rw [hd] at h2
    exact h2

/-- C10: a reference that is not a Spotify track URL is resolved with no
re-entry (the outcome with any fuel equals the outcome with none); when the
search provider's top result is never itself a Spotify track URL, one unit
of fuel suffices for every reference — the recursion depth is at most 2 —
and the bounded run never reports fuel exhaustion; and nothing in the code
bounds the recursion otherwise: in an environment whose search always
returns a Spotify track URL, every fuel bound is exhausted. -/
theorem c10_recursion_bound :
    (∀ env url ov fuel, spotifyTrackId (pyTrim url) = .ok none →
      downloadFuel fuel env url ov = downloadFuel 0 env url ov) ∧
    (∀ env, SearchYieldsNonSpotify env → ∀ url ov fuel,
      downloadFuel (fuel + 1) env url ov = downloadFuel 1 env url ov ∧
      (downloadFuel 1 env url ov).2 ≠ .error .outOfFuel) ∧
    (∀ fuel, (downloadFuel fuel loopEnv loopUrl none).2 = .error .outOfFuel) :=
  ⟨fun env url ov fuel h => download_nonspot_eq env url ov fuel h,
   fun env henv url ov fuel => download_bounded env henv url ov fuel,
   fun fuel => download_loop fuel none⟩

lemma trivEnv_search_non_spotify : SearchYieldsNonSpotify trivEnv := by
  intro tid ov calls u m h
  by_cases ht : tid = ""
  · simp [spotifyPrep, ht, trivEnv] at h
  · simp [spotifyPrep, ht, trivEnv] at h

/-- Witness for C10: a plain non-Spotify URL resolves identically with fuel
7 and fuel 0 under the inert environment, whose search never yields a
Spotify URL, so one unit of fuel also suffices for a Spotify reference. -/
theorem c10_recursion_bound_witness :
    spotifyTrackId (pyTrim "https://example.com/x") = .ok none ∧
    downloadFuel 7 trivEnv "https://example.com/x" none =
      downloadFuel 0 trivEnv "https://example.com/x" none ∧
    downloadFuel 3 trivEnv "https://open.spotify.com/track/ABC" none =
      downloadFuel 1 trivEnv "https://open.spotify.com/track/ABC" none ∧
    (downloadFuel 2 loopEnv loopUrl none).2 = .error .outOfFuel :=
  ⟨rfl,
   c10_recursion_bound.1 trivEnv "https://example.com/x" none 7 rfl,
   (c10_recursion_bound.2.1 trivEnv trivEnv_search_non_spotify
     "https://open.spotify.com/track/ABC" none 2).1,
   c10_recursion_bound.2.2 2⟩

end Arbor
